import Mathlib

/-!
Verification of the ingestion / load / paginated-query core of the
dynamodb-pract repository, as a shallow embedding in Lean 4.

Conventions of the embedding:
  - Python dicts (DynamoDB attribute maps) are association lists
    `List (String × Value)`; Python dicts preserve insertion order, and
    so do the association lists.
  - Python floats are modelled by `PyFloat`, carrying both the exact
    binary value (`binary`) and the decimal value denoted by the string
    produced by str(v) (`display`); in CPython, str on a float yields
    the shortest decimal string that round-trips, so a float that was
    written as the literal 19.99 has display = 19.99 while its binary
    value differs.  Decimal(s) for a decimal string s denotes exactly
    the rational that s denotes.
  - Arithmetic performed by the pipeline on numeric cells is modelled
    exactly over the rationals / integers; a float produced by exact
    in-pipeline arithmetic is modelled with display = binary
    (see PyFloat.exact).
  - pandas DataFrames are `Frame`s: a column-name list plus rows of
    cells; cells carry numbers, text, parsed dates, or the NaN/NaT
    marker `Cell.empty`.
-/

namespace DynamoPract

/-- A Python float: `binary` is its exact binary value, `display` the decimal
value denoted by str(v) (the shortest round-tripping decimal string). -/
structure PyFloat where
  binary : Rat
  display : Rat
deriving DecidableEq, Repr

/-- A float obtained from exact in-pipeline arithmetic (modelled exactly):
its printed decimal form denotes its value. -/
def PyFloat.exact (q : Rat) : PyFloat := ⟨q, q⟩

/-- Values stored in attribute maps handed to the DynamoDB layer. -/
inductive Value where
  | vStr (s : String)
  | vInt (n : Int)
  | vFloat (f : PyFloat)
  | vDecimal (q : Rat)
  | vNull
deriving DecidableEq, Repr

/-- The decimal value denoted by str(v) for a float v. -/
def pyFloatStr (f : PyFloat) : Rat := f.display

/-- Decimal(s): the exact rational denoted by the decimal string s
(here represented by the rational the string denotes). -/
def decimalOfString (q : Rat) : Rat := q

/-- Converting a stored value back to a native numeric (Decimal and int
read back exactly; a float reads back as its binary value). -/
def Value.toNumeric : Value → Option Rat
  | .vInt n => some (n : Rat)
  | .vDecimal q => some q
  | .vFloat f => some f.binary
  | _ => none

/-- src/dynamodb/dynamo_loader.py, convert_float_to_decimal:
builds a new dict mapping every float value v to Decimal(str(v)) and
copying every other value unchanged. -/
def convert_float_to_decimal (item : List (String × Value)) : List (String × Value) :=
  item.map (fun kv =>
    match kv.2 with
    | .vFloat f => (kv.1, Value.vDecimal (decimalOfString (pyFloatStr f)))
    | v => (kv.1, v))

/-- Claim C4: convert_float_to_decimal maps each float value v to
Decimal(str(v)) — the decimal denoted by the float's string form, never the
binary float value — leaves every non-float value unchanged, and the adapted
value converted back to a native numeric equals the original decimal value
(the display value, e.g. 19.99) to full precision. -/
theorem convert_float_to_decimal_spec (item : List (String × Value)) :
    (∀ k f, (k, Value.vFloat f) ∈ item →
      (k, Value.vDecimal f.display) ∈ convert_float_to_decimal item ∧
      (Value.vDecimal f.display).toNumeric = some f.display) ∧
    (∀ k v, (k, v) ∈ item → (∀ f, v ≠ Value.vFloat f) →
      (k, v) ∈ convert_float_to_decimal item) := by
  constructor
  · intro k f hmem
    refine ⟨?_, rfl⟩
    unfold convert_float_to_decimal
    exact List.mem_map.mpr ⟨(k, Value.vFloat f), hmem, rfl⟩
  · intro k v hmem hnf
    unfold convert_float_to_decimal
    refine List.mem_map.mpr ⟨(k, v), hmem, ?_⟩
    cases v with
    | vFloat f => exact absurd rfl (hnf f)
    | vStr s => rfl
    | vInt n => rfl
    | vDecimal q => rfl
    | vNull => rfl

/-- Witness for C4 at a concrete attribute map: a float written as 19.99
(whose binary value is the nearest double, a different rational) becomes
Decimal 19.99 exactly, and the string value passes through unchanged. -/
theorem convert_float_to_decimal_spec_witness :
    ("UnitPrice", Value.vFloat ⟨(19990000000000002 : Rat) / 1000000000000000, (1999 : Rat) / 100⟩) ∈
      [("UnitPrice", Value.vFloat ⟨(19990000000000002 : Rat) / 1000000000000000, (1999 : Rat) / 100⟩),
       ("Country", Value.vStr "Spain")] ∧
    (("UnitPrice", Value.vDecimal ((1999 : Rat) / 100)) ∈
      convert_float_to_decimal
        [("UnitPrice", Value.vFloat ⟨(19990000000000002 : Rat) / 1000000000000000, (1999 : Rat) / 100⟩),
         ("Country", Value.vStr "Spain")] ∧
     (Value.vDecimal ((1999 : Rat) / 100)).toNumeric = some ((1999 : Rat) / 100)) ∧
    ("Country", Value.vStr "Spain") ∈
      convert_float_to_decimal
        [("UnitPrice", Value.vFloat ⟨(19990000000000002 : Rat) / 1000000000000000, (1999 : Rat) / 100⟩),
         ("Country", Value.vStr "Spain")] := by
  refine ⟨List.mem_cons_self _ _, ?_, ?_⟩
  · exact (convert_float_to_decimal_spec _).1 "UnitPrice"
      ⟨(19990000000000002 : Rat) / 1000000000000000, (1999 : Rat) / 100⟩
      (List.mem_cons_self _ _)
  · exact (convert_float_to_decimal_spec _).2 "Country" (Value.vStr "Spain")
      (List.mem_cons_of_mem _ (List.mem_cons_self _ _))
      (fun f h => by cases h)

/-!
### Paginated access engine (src/analityics/base/query_base.py)

The store is abstracted as its sequence of pages: page i either yields a
list of items (with LastEvaluatedKey = i + 1 when further pages remain,
absent on the final page) or raises an error.  The cursor is the page
index; the engine starts with no cursor (page 0) and follows cursors
until absent.  On a store error the source catches the exception, logs
it, and returns [] (the items accumulator is discarded).
-/

/-- One store response: the items of the page and the continuation cursor
(LastEvaluatedKey), absent on the final page. -/
def fetchPage {α : Type} (pages : List (Except String (List α))) (i : Nat) :
    Except String (List α × Option Nat) :=
  match pages.get? i with
  | none => Except.ok ([], none)
  | some (Except.error e) => Except.error e
  | some (Except.ok pg) =>
      Except.ok (pg, if i + 1 < pages.length then some (i + 1) else none)

/-- The while-True loop of paginated_scan: extend the accumulator with the
page items and continue while a cursor is returned; the enclosing
try/except returns [] when the store errors. -/
def scanLoop {α : Type} (pages : List (Except String (List α))) (i : Nat)
    (acc : List α) : List α :=
  match h : pages.get? i with
  | none => acc
  | some (Except.error _) => []
  | some (Except.ok pg) =>
      if hlt : i + 1 < pages.length then scanLoop pages (i + 1) (acc ++ pg)
      else acc ++ pg
termination_by pages.length - i
decreasing_by
  have hi : i < pages.length := List.get?_eq_some.mp h |>.1
  omega

/-- src/analityics/base/query_base.py, paginated_scan: follow cursors from
the start, accumulating all pages; on a store error, catch, log, return []. -/
def paginated_scan {α : Type} (pages : List (Except String (List α))) : List α :=
  scanLoop pages 0 []

/-- The identical while-True loop of paginated_query (the source duplicates
the loop verbatim for the query path). -/
def queryLoop {α : Type} (pages : List (Except String (List α))) (i : Nat)
    (acc : List α) : List α :=
  match h : pages.get? i with
  | none => acc
  | some (Except.error _) => []
  | some (Except.ok pg) =>
      if hlt : i + 1 < pages.length then queryLoop pages (i + 1) (acc ++ pg)
      else acc ++ pg
termination_by pages.length - i
decreasing_by
  have hi : i < pages.length := List.get?_eq_some.mp h |>.1
  omega

/-- src/analityics/base/query_base.py, paginated_query: same cursor-following
loop over the query responses of an index. -/
def paginated_query {α : Type} (pages : List (Except String (List α))) : List α :=
  queryLoop pages 0 []

lemma scanLoop_ok {α : Type} (pages : List (List α)) :
    ∀ i acc, scanLoop (pages.map Except.ok) i acc = acc ++ (pages.drop i).flatten := by
  have H : ∀ n i acc, pages.length - i ≤ n →
      scanLoop (pages.map Except.ok) i acc = acc ++ (pages.drop i).flatten := by
    intro n
    induction n with
    | zero =>
      intro i acc hbound
      have hge : pages.length ≤ i := by omega
      rw [scanLoop]
      have hget : (pages.map (Except.ok : List α → Except String (List α))).get? i = none := by
        rw [List.get?_eq_none, List.length_map]
        exact hge
      rw [hget]
      simp [List.drop_eq_nil_of_le hge]
    | succ n ih =>
      intro i acc hbound
      rw [scanLoop]
      rcases hget : (pages.map Except.ok).get? i with _ | pg
      · rw [List.get?_eq_none, List.length_map] at hget
        simp [List.drop_eq_nil_of_le hget]
      · rcases hpg : pages.get? i with _ | p
        · rw [List.get?_map, hpg] at hget
          cases hget
        · rw [List.get?_map, hpg] at hget
          cases hget
          obtain ⟨hi, hieq⟩ := List.get?_eq_some.mp hpg
          have hdrop : pages.drop i = p :: pages.drop (i + 1) := by
            rw [List.drop_eq_get_cons hi, hieq]
          by_cases hlt : i + 1 < (pages.map (Except.ok : List α → Except String (List α))).length
          · simp only [hlt, dif_pos]
            rw [ih (i + 1) (acc ++ p) (by omega)]
            rw [hdrop]
            simp
          · simp only [hlt, dif_neg, not_false_iff]
            rw [List.length_map] at hlt
            have hnil : pages.drop (i + 1) = [] := List.drop_eq_nil_of_le (by omega)
            rw [hdrop, hnil]
            simp
  intro i acc
  exact H (pages.length - i) i acc le_rfl

lemma queryLoop_ok {α : Type} (pages : List (List α)) :
    ∀ i acc, queryLoop (pages.map Except.ok) i acc = acc ++ (pages.drop i).flatten := by
  have H : ∀ n i acc, pages.length - i ≤ n →
      queryLoop (pages.map Except.ok) i acc = acc ++ (pages.drop i).flatten := by
    intro n
    induction n with
    | zero =>
      intro i acc hbound
      have hge : pages.length ≤ i := by omega
      rw [queryLoop]
      have hget : (pages.map (Except.ok : List α → Except String (List α))).get? i = none := by
        rw [List.get?_eq_none, List.length_map]
        exact hge
      rw [hget]
      simp [List.drop_eq_nil_of_le hge]
    | succ n ih =>
      intro i acc hbound
      rw [queryLoop]
      rcases hget : (pages.map Except.ok).get? i with _ | pg
      · rw [List.get?_eq_none, List.length_map] at hget
        simp [List.drop_eq_nil_of_le hget]
      · rcases hpg : pages.get? i with _ | p
        · rw [List.get?_map, hpg] at hget
          cases hget
        · rw [List.get?_map, hpg] at hget
          cases hget
          obtain ⟨hi, hieq⟩ := List.get?_eq_some.mp hpg
          have hdrop : pages.drop i = p :: pages.drop (i + 1) := by
            rw [List.drop_eq_get_cons hi, hieq]
          by_cases hlt : i + 1 < (pages.map (Except.ok : List α → Except String (List α))).length
          · simp only [hlt, dif_pos]
            rw [ih (i + 1) (acc ++ p) (by omega)]
            rw [hdrop]
            simp
          · simp only [hlt, dif_neg, not_false_iff]
            rw [List.length_map] at hlt
            have hnil : pages.drop (i + 1) = [] := List.drop_eq_nil_of_le (by omega)
            rw [hdrop, hnil]
            simp
  intro i acc
  exact H (pages.length - i) i acc le_rfl

/-- Claim C3: for a store that pages the matching items into arbitrary pages
(any page size) and raises no error, the cursor-following loops of both
paginated_scan and paginated_query return exactly the concatenation of all
pages — every matching item exactly once, no duplicates, no omissions. -/
theorem pagination_completeness {α : Type} (pages : List (List α)) :
    paginated_scan (pages.map Except.ok) = pages.flatten ∧
    paginated_query (pages.map Except.ok) = pages.flatten ∧
    (paginated_scan (pages.map Except.ok)).length = (pages.map List.length).sum := by
  have hs : paginated_scan (pages.map Except.ok) = pages.flatten := by
    rw [paginated_scan, scanLoop_ok]
    simp
  have hq : paginated_query (pages.map Except.ok) = pages.flatten := by
    rw [paginated_query, queryLoop_ok]
    simp
  exact ⟨hs, hq, by rw [hs]; exact List.length_flatten pages⟩

/-- Counterexample to claim C1 as stated: a store whose first page succeeds
with one item and whose second page raises.  The claim says the engine
returns the accumulated first page [0]; the source's except-branch returns
[] (the accumulator is discarded), for the scan and the query path alike. -/
theorem paginated_error_counterexample :
    paginated_scan [Except.ok [(0 : Nat)], Except.error "store error"] = [] ∧
    paginated_query [Except.ok [(0 : Nat)], Except.error "store error"] = [] ∧
    ([] : List Nat) ≠ [0] := by
  refine ⟨?_, ?_, by decide⟩
  · rw [paginated_scan, scanLoop]
    simp only [List.get?, Nat.zero_lt_succ, List.length_cons, List.length_nil]
    rw [dif_pos (by omega), scanLoop]
    rfl
  · rw [paginated_query, queryLoop]
    simp only [List.get?, Nat.zero_lt_succ, List.length_cons, List.length_nil]
    rw [dif_pos (by omega), queryLoop]
    rfl

lemma scanLoop_error {α : Type} (front : List (List α)) (e : String)
    (rest : List (Except String (List α))) :
    ∀ i acc, i ≤ front.length →
      scanLoop (front.map Except.ok ++ Except.error e :: rest) i acc = [] := by
  have H : ∀ n i acc, front.length - i ≤ n → i ≤ front.length →
      scanLoop (front.map Except.ok ++ Except.error e :: rest) i acc = [] := by
    intro n
    induction n with
    | zero =>
      intro i acc hbound hle
      have hi : i = front.length := by omega
      rw [scanLoop]
      have hget : (front.map Except.ok ++ Except.error e :: rest).get? i =
          some (Except.error e) := by
        subst hi
        rw [List.get?_append_right (by simp)]
        simp
      rw [hget]
    | succ n ih =>
      intro i acc hbound hle
      rcases Nat.lt_or_ge i front.length with hlt | hge
      · rw [scanLoop]
        rcases hfp : front.get? i with _ | p
        · rw [List.get?_eq_none] at hfp
          omega
        · have hget : (front.map Except.ok ++ Except.error e :: rest).get? i =
              some (Except.ok p) := by
            rw [List.get?_append (by simpa using hlt)]
            rw [List.get?_map, hfp]
            rfl
          rw [hget]
          have hlen : i + 1 < (front.map Except.ok ++ Except.error e :: rest).length := by
            simp
            omega
          dsimp only
          rw [dif_pos hlen]
          exact ih (i + 1) (acc ++ p) (by omega) (by omega)
      · have hi : i = front.length := by omega
        rw [scanLoop]
        have hget : (front.map Except.ok ++ Except.error e :: rest).get? i =
            some (Except.error e) := by
          subst hi
          rw [List.get?_append_right (by simp)]
          simp
        rw [hget]
  intro i acc hle
  exact H (front.length - i) i acc le_rfl hle

lemma queryLoop_error {α : Type} (front : List (List α)) (e : String)
    (rest : List (Except String (List α))) :
    ∀ i acc, i ≤ front.length →
      queryLoop (front.map Except.ok ++ Except.error e :: rest) i acc = [] := by
  have H : ∀ n i acc, front.length - i ≤ n → i ≤ front.length →
      queryLoop (front.map Except.ok ++ Except.error e :: rest) i acc = [] := by
    intro n
    induction n with
    | zero =>
      intro i acc hbound hle
      have hi : i = front.length := by omega
      rw [queryLoop]
      have hget : (front.map Except.ok ++ Except.error e :: rest).get? i =
          some (Except.error e) := by
        subst hi
        rw [List.get?_append_right (by simp)]
        simp
      rw [hget]
    | succ n ih =>
      intro i acc hbound hle
      rcases Nat.lt_or_ge i front.length with hlt | hge
      · rw [queryLoop]
        rcases hfp : front.get? i with _ | p
        · rw [List.get?_eq_none] at hfp
          omega
        · have hget : (front.map Except.ok ++ Except.error e :: rest).get? i =
              some (Except.ok p) := by
            rw [List.get?_append (by simpa using hlt)]
            rw [List.get?_map, hfp]
            rfl
          rw [hget]
          have hlen : i + 1 < (front.map Except.ok ++ Except.error e :: rest).length := by
            simp
            omega
          dsimp only
          rw [dif_pos hlen]
          exact ih (i + 1) (acc ++ p) (by omega) (by omega)
      · have hi : i = front.length := by omega
        rw [queryLoop]
        have hget : (front.map Except.ok ++ Except.error e :: rest).get? i =
            some (Except.error e) := by
          subst hi
          rw [List.get?_append_right (by simp)]
          simp
        rw [hget]
  intro i acc hle
  exact H (front.length - i) i acc le_rfl hle

/-- Claim C1 (amended): when the store raises on some page after any number
of successfully fetched pages, both paginated_scan and paginated_query catch
and log the error and return the empty list, discarding the items
accumulated from the pages fetched before the error (they do not return the
accumulated partial result). -/
theorem paginated_error_returns_empty {α : Type} (front : List (List α))
    (e : String) (rest : List (Except String (List α))) :
    paginated_scan (front.map Except.ok ++ Except.error e :: rest) = [] ∧
    paginated_query (front.map Except.ok ++ Except.error e :: rest) = [] := by
  exact ⟨scanLoop_error front e rest 0 [] (Nat.zero_le _),
         queryLoop_error front e rest 0 [] (Nat.zero_le _)⟩

/-!
### DataFrames and the cleaning stage (src/data_cleaning.py)

A Frame is a list of column names plus rows of cells.  Cells are numbers
(exact, see the header note), text, parsed dates, or the NaN/NaT marker
`Cell.empty`.  pandas to_datetime is an external library routine; the
embedding takes the date parser as an explicit function argument, so the
theorems hold for every parser.
-/

/-- A cell of a DataFrame: a number, a string, a parsed date (abstract
timestamp), or the NaN/NaT marker. -/
inductive Cell where
  | num (q : Rat)
  | text (s : String)
  | date (d : Nat)
  | empty
deriving DecidableEq, Repr

/-- A row: an ordered association of column names to cells. -/
abbrev Row := List (String × Cell)

/-- A pandas DataFrame: column names plus rows. -/
structure Frame where
  cols : List String
  rows : List Row
deriving DecidableEq, Repr

/-- Reading the cell of a column in a row (missing entry reads as NaN). -/
def getCell (r : Row) (c : String) : Cell :=
  match r.find? (fun kv => kv.1 == c) with
  | some kv => kv.2
  | none => Cell.empty

/-- Assigning a column in a row: overwrite an existing entry in place,
append a new entry otherwise (pandas column assignment). -/
def setCell (r : Row) (c : String) (v : Cell) : Row :=
  if r.any (fun kv => kv.1 == c) then
    r.map (fun kv => if kv.1 == c then (c, v) else kv)
  else r ++ [(c, v)]

/-- The pandas comparison cell > 0 (False on non-numeric/NaN cells). -/
def cellPos (x : Cell) : Bool :=
  match x with
  | .num q => decide (0 < q)
  | _ => false

/-- Elementwise product of two cells (NaN when either is non-numeric). -/
def cellMul : Cell → Cell → Cell
  | .num a, .num b => .num (a * b)
  | _, _ => .empty

/-- src/data_cleaning.py, remove_invalid_sales: when both the quantity and
price columns exist, keep the rows whose quantity and price are positive;
otherwise return the frame unchanged. -/
def remove_invalid_sales (df : Frame) (quantity_col price_col : String) : Frame :=
  if quantity_col ∈ df.cols ∧ price_col ∈ df.cols then
    { df with rows := df.rows.filter (fun r =>
        cellPos (getCell r quantity_col) && cellPos (getCell r price_col)) }
  else df

/-- src/data_cleaning.py, add_total_amount: when both columns exist, assign
the column total_amount = quantity * unitprice; otherwise unchanged. -/
def add_total_amount (df : Frame) (quantity_col price_col : String) : Frame :=
  if quantity_col ∈ df.cols ∧ price_col ∈ df.cols then
    { cols := if "total_amount" ∈ df.cols then df.cols else df.cols ++ ["total_amount"],
      rows := df.rows.map (fun r =>
        setCell r "total_amount" (cellMul (getCell r quantity_col) (getCell r price_col))) }
  else df

/-- src/data_cleaning.py, clean_dates: when the column is missing, warn and
return the frame unchanged; otherwise coerce every cell of the column with
the date parser (unparseable cells become NaT = Cell.empty) and drop the
rows whose coerced cell is NaT.  The second component collects the emitted
warnings. -/
def clean_dates (parse : Cell → Option Nat) (df : Frame) (column : String) :
    Frame × List String :=
  if column ∈ df.cols then
    let coerced := df.rows.map (fun r =>
      setCell r column
        (match parse (getCell r column) with
         | some d => Cell.date d
         | none => Cell.empty))
    ({ cols := df.cols,
       rows := coerced.filter (fun r => getCell r column != Cell.empty) }, [])
  else
    (df, ["Warning: Column " ++ column ++ " not found."])

lemma find?_map_overwrite (c : String) (v : Cell) :
    ∀ r : Row, r.any (fun kv => kv.1 == c) = true →
      (r.map (fun kv => if kv.1 == c then (c, v) else kv)).find?
        (fun kv => kv.1 == c) = some (c, v) := by
  intro r
  induction r with
  | nil => intro h; cases h
  | cons kv rest ih =>
    intro h
    by_cases hk : kv.1 == c
    · simp only [List.map_cons, if_pos hk]
      exact List.find?_cons_of_pos _ (by simp)
    · simp only [List.map_cons, if_neg hk]
      rw [List.find?_cons_of_neg _ (by simpa using hk)]
      apply ih
      simp only [List.any_cons, hk, Bool.false_or] at h
      exact h

lemma find?_append_new (c : String) (v : Cell) :
    ∀ r : Row, r.any (fun kv => kv.1 == c) = false →
      (r ++ [(c, v)]).find? (fun kv => kv.1 == c) = some (c, v) := by
  intro r
  induction r with
  | nil => simp
  | cons kv rest ih =>
    intro h
    simp only [List.any_cons, Bool.or_eq_false_iff] at h
    simp only [List.cons_append]
    rw [List.find?_cons_of_neg _ (by simp [h.1])]
    exact ih h.2

/-- Reading back the column just assigned yields the assigned cell. -/
lemma getCell_setCell (r : Row) (c : String) (v : Cell) :
    getCell (setCell r c v) c = v := by
  rw [setCell]
  by_cases h : r.any (fun kv => kv.1 == c)
  · rw [if_pos h, getCell, find?_map_overwrite c v r h]
  · have h2 : r.any (fun kv => kv.1 == c) = false := by
      simp only [Bool.not_eq_true] at h
      exact h
    rw [if_neg h, getCell, find?_append_new c v r h2]

/-- Claim C5: with both the quantity and unit-price columns present,
remove_invalid_sales retains exactly the rows with positive quantity and
positive unit price; with either column absent it is a no-op pass-through
(and, being total, never raises). -/
theorem remove_invalid_sales_spec (df : Frame) (quantity_col price_col : String) :
    (quantity_col ∈ df.cols → price_col ∈ df.cols →
      remove_invalid_sales df quantity_col price_col =
        { cols := df.cols,
          rows := df.rows.filter (fun r =>
            cellPos (getCell r quantity_col) && cellPos (getCell r price_col)) } ∧
      ∀ r, r ∈ (remove_invalid_sales df quantity_col price_col).rows ↔
        r ∈ df.rows ∧ cellPos (getCell r quantity_col) = true ∧
          cellPos (getCell r price_col) = true) ∧
    (¬(quantity_col ∈ df.cols ∧ price_col ∈ df.cols) →
      remove_invalid_sales df quantity_col price_col = df) := by
  constructor
  · intro h1 h2
    have heq : remove_invalid_sales df quantity_col price_col =
        { cols := df.cols,
          rows := df.rows.filter (fun r =>
            cellPos (getCell r quantity_col) && cellPos (getCell r price_col)) } := by
      rw [remove_invalid_sales, if_pos ⟨h1, h2⟩]
    refine ⟨heq, fun r => ?_⟩
    rw [heq]
    simp [List.mem_filter, and_assoc]
  · intro h
    rw [remove_invalid_sales, if_neg h]

/-- Witness for C5 at concrete frames: with both columns present, the row
with quantity -1 is dropped and the valid row kept; with the price column
absent, the frame passes through unchanged. -/
theorem remove_invalid_sales_spec_witness :
    "quantity" ∈ (Frame.mk ["quantity", "unitprice"]
        [[("quantity", Cell.num 2), ("unitprice", Cell.num 3)],
         [("quantity", Cell.num (-1)), ("unitprice", Cell.num 3)]]).cols ∧
    "unitprice" ∈ (Frame.mk ["quantity", "unitprice"]
        [[("quantity", Cell.num 2), ("unitprice", Cell.num 3)],
         [("quantity", Cell.num (-1)), ("unitprice", Cell.num 3)]]).cols ∧
    (remove_invalid_sales (Frame.mk ["quantity", "unitprice"]
        [[("quantity", Cell.num 2), ("unitprice", Cell.num 3)],
         [("quantity", Cell.num (-1)), ("unitprice", Cell.num 3)]]) "quantity" "unitprice").rows =
      [[("quantity", Cell.num 2), ("unitprice", Cell.num 3)]] ∧
    ¬("quantity" ∈ (Frame.mk ["quantity"] [[("quantity", Cell.num 2)]]).cols ∧
      "unitprice" ∈ (Frame.mk ["quantity"] [[("quantity", Cell.num 2)]]).cols) ∧
    remove_invalid_sales (Frame.mk ["quantity"] [[("quantity", Cell.num 2)]])
        "quantity" "unitprice" =
      Frame.mk ["quantity"] [[("quantity", Cell.num 2)]] := by
  refine ⟨by simp, by simp, ?_, by simp, ?_⟩
  · have h := ((remove_invalid_sales_spec (Frame.mk ["quantity", "unitprice"]
        [[("quantity", Cell.num 2), ("unitprice", Cell.num 3)],
         [("quantity", Cell.num (-1)), ("unitprice", Cell.num 3)]])
        "quantity" "unitprice").1 (by simp) (by simp)).1
    rw [h]
    rfl
  · exact (remove_invalid_sales_spec (Frame.mk ["quantity"]
      [[("quantity", Cell.num 2)]]) "quantity" "unitprice").2 (by simp)

/-- Claim C6: with the quantity and unit-price columns present,
add_total_amount assigns to every row a total_amount cell equal to
quantity * unitprice, recomputed from those two columns; any total_amount
value already present in the input row is overwritten, never trusted. -/
theorem add_total_amount_spec (df : Frame) (quantity_col price_col : String)
    (hq : quantity_col ∈ df.cols) (hp : price_col ∈ df.cols) :
    (add_total_amount df quantity_col price_col).rows =
      df.rows.map (fun r =>
        setCell r "total_amount" (cellMul (getCell r quantity_col) (getCell r price_col))) ∧
    ∀ r ∈ (add_total_amount df quantity_col price_col).rows,
      ∃ r0 ∈ df.rows,
        getCell r "total_amount" = cellMul (getCell r0 quantity_col) (getCell r0 price_col) := by
  have heq : (add_total_amount df quantity_col price_col).rows =
      df.rows.map (fun r =>
        setCell r "total_amount" (cellMul (getCell r quantity_col) (getCell r price_col))) := by
    rw [add_total_amount, if_pos ⟨hq, hp⟩]
  refine ⟨heq, ?_⟩
  intro r hr
  rw [heq] at hr
  obtain ⟨r0, hr0, hmap⟩ := List.mem_map.mp hr
  exact ⟨r0, hr0, by rw [← hmap, getCell_setCell]⟩

/-- Witness for C6 at a concrete frame: a row carrying a bogus input
total_amount of 999 gets total_amount recomputed to 2 * 5 = 10. -/
theorem add_total_amount_spec_witness :
    "quantity" ∈ (Frame.mk ["quantity", "unitprice", "total_amount"]
        [[("quantity", Cell.num 2), ("unitprice", Cell.num 5),
          ("total_amount", Cell.num 999)]]).cols ∧
    "unitprice" ∈ (Frame.mk ["quantity", "unitprice", "total_amount"]
        [[("quantity", Cell.num 2), ("unitprice", Cell.num 5),
          ("total_amount", Cell.num 999)]]).cols ∧
    (add_total_amount (Frame.mk ["quantity", "unitprice", "total_amount"]
        [[("quantity", Cell.num 2), ("unitprice", Cell.num 5),
          ("total_amount", Cell.num 999)]]) "quantity" "unitprice").rows =
      [[("quantity", Cell.num 2), ("unitprice", Cell.num 5),
        ("total_amount", Cell.num 10)]] := by
  refine ⟨by simp, by simp, ?_⟩
  have h := (add_total_amount_spec (Frame.mk ["quantity", "unitprice", "total_amount"]
      [[("quantity", Cell.num 2), ("unitprice", Cell.num 5),
        ("total_amount", Cell.num 999)]]) "quantity" "unitprice"
      (by simp) (by simp)).1
  rw [h]
  simp [setCell, getCell, cellMul]
  norm_num

lemma coerce_filter_eq_filterMap (parse : Cell → Option Nat) (column : String) :
    ∀ rows : List Row,
      ((rows.map (fun r =>
          setCell r column
            (match parse (getCell r column) with
             | some d => Cell.date d
             | none => Cell.empty))).filter
        (fun r => getCell r column != Cell.empty)) =
      rows.filterMap (fun r =>
        (parse (getCell r column)).map (fun d => setCell r column (Cell.date d))) := by
  intro rows
  induction rows with
  | nil => rfl
  | cons r rest ih =>
    simp only [List.map_cons, List.filterMap_cons]
    rcases hp : parse (getCell r column) with _ | d
    · rw [List.filter_cons]
      rw [hp] at *
      have hc : getCell (setCell r column Cell.empty) column = Cell.empty :=
        getCell_setCell r column Cell.empty
      simp only [hc]
      simpa using ih
    · rw [List.filter_cons]
      rw [hp] at *
      have hc : getCell (setCell r column (Cell.date d)) column = Cell.date d :=
        getCell_setCell r column (Cell.date d)
      simp [hc, ih]

/-- Claim C8: when the timestamp column is absent, clean_dates returns the
frame unchanged together with a warning (it does not raise); when the column
is present, rows whose date cell fails to parse are dropped and the
remaining rows are returned with the column coerced to a typed date, with
no warning. -/
theorem clean_dates_spec (parse : Cell → Option Nat) (df : Frame) (column : String) :
    (column ∉ df.cols →
      clean_dates parse df column =
        (df, ["Warning: Column " ++ column ++ " not found."])) ∧
    (column ∈ df.cols →
      (clean_dates parse df column).1.cols = df.cols ∧
      (clean_dates parse df column).1.rows =
        df.rows.filterMap (fun r =>
          (parse (getCell r column)).map (fun d => setCell r column (Cell.date d))) ∧
      (clean_dates parse df column).2 = []) := by
  constructor
  · intro h
    rw [clean_dates, if_neg h]
  · intro h
    rw [clean_dates, if_pos h]
    refine ⟨rfl, ?_, rfl⟩
    exact coerce_filter_eq_filterMap parse column df.rows

/-- Witness for C8 at concrete inputs: with the column absent the frame is
returned unchanged with a warning; with it present, the unparseable row is
dropped and the parseable one is coerced to a typed date. -/
theorem clean_dates_spec_witness :
    ("invoicedate" ∉ (Frame.mk ["country"] [[("country", Cell.text "Spain")]]).cols) ∧
    clean_dates (fun c => match c with
        | Cell.text "2010-12-01" => some 14940
        | _ => none)
      (Frame.mk ["country"] [[("country", Cell.text "Spain")]]) "invoicedate" =
      (Frame.mk ["country"] [[("country", Cell.text "Spain")]],
       ["Warning: Column " ++ "invoicedate" ++ " not found."]) ∧
    ("invoicedate" ∈ (Frame.mk ["invoicedate"]
        [[("invoicedate", Cell.text "2010-12-01")],
         [("invoicedate", Cell.text "garbage")]]).cols) ∧
    (clean_dates (fun c => match c with
        | Cell.text "2010-12-01" => some 14940
        | _ => none)
      (Frame.mk ["invoicedate"]
        [[("invoicedate", Cell.text "2010-12-01")],
         [("invoicedate", Cell.text "garbage")]]) "invoicedate").1.rows =
      [[("invoicedate", Cell.date 14940)]] := by
  refine ⟨by decide, ?_, by decide, ?_⟩
  · exact (clean_dates_spec (fun c => match c with
        | Cell.text "2010-12-01" => some 14940
        | _ => none)
      (Frame.mk ["country"] [[("country", Cell.text "Spain")]]) "invoicedate").1
      (by simp)
  · have h := ((clean_dates_spec (fun c => match c with
        | Cell.text "2010-12-01" => some 14940
        | _ => none)
      (Frame.mk ["invoicedate"]
        [[("invoicedate", Cell.text "2010-12-01")],
         [("invoicedate", Cell.text "garbage")]]) "invoicedate").2 (by simp)).2.1
    rw [h]
    rfl

/-!
### Dataframe preparation for DynamoDB (src/dynamodb/dynamo_loader.py)

prepare_dataframe_for_dynamo renames the normalized columns to the
DynamoDB schema (here: the field names of `InRow` to those of
`CleanRow`/`AggRow`), formats InvoiceDate (the pandas strftime is taken
as an explicit `fmtDate` argument), fills missing CustomerID with the
sentinel "Guest", drops rows with a missing InvoiceNo, aggregates
duplicates by the composite key (InvoiceNo, StockCode) — quantities and
total amounts summed, the other columns from the first row of each
group — and converts the records to attribute maps with floats turned
into Decimals.  pandas sorts the group keys; the embedding lists groups
in first-occurrence order, and none of the verified properties depend
on the order of groups.
-/

structure InRow where
  invoiceNo : Option String
  stockCode : String
  invoiceDate : String
  country : String
  customerID : Option String
  quantity : Int
  unitPrice : Rat
  totalAmount : Rat
deriving DecidableEq, Repr

structure CleanRow where
  invoiceNo : String
  stockCode : String
  invoiceDate : String
  country : String
  customerID : String
  quantity : Int
  unitPrice : Rat
  totalAmount : Rat
deriving DecidableEq, Repr

def cleanRow (fmtDate : String → String) (r : InRow) : CleanRow :=
  { invoiceNo := r.invoiceNo.getD "",
    stockCode := r.stockCode,
    invoiceDate := fmtDate r.invoiceDate,
    country := r.country,
    customerID := r.customerID.getD "Guest",
    quantity := r.quantity,
    unitPrice := r.unitPrice,
    totalAmount := r.totalAmount }

def cleanRows (fmtDate : String → String) (rows : List InRow) : List CleanRow :=
  (rows.filter (fun r => r.invoiceNo.isSome)).map (cleanRow fmtDate)

def rowKey (r : CleanRow) : String × String := (r.invoiceNo, r.stockCode)

def uniqueKeys : List (String × String) → List (String × String)
  | [] => []
  | k :: ks => k :: (uniqueKeys ks).filter (fun k2 => decide (k2 ≠ k))

structure AggRow where
  invoiceNo : String
  stockCode : String
  quantity : Int
  totalAmount : Rat
  invoiceDate : String
  country : String
  customerID : String
  unitPrice : Rat
deriving DecidableEq, Repr

def aggregateGroup (k : String × String) (group : List CleanRow) : AggRow :=
  { invoiceNo := k.1, stockCode := k.2,
    quantity := (group.map CleanRow.quantity).sum,
    totalAmount := (group.map CleanRow.totalAmount).sum,
    invoiceDate := (group.head?.map CleanRow.invoiceDate).getD "",
    country := (group.head?.map CleanRow.country).getD "",
    customerID := (group.head?.map CleanRow.customerID).getD "",
    unitPrice := (group.head?.map CleanRow.unitPrice).getD 0 }

def groupByKey (rows : List CleanRow) : List AggRow :=
  (uniqueKeys (rows.map rowKey)).map (fun k =>
    aggregateGroup k (rows.filter (fun r => decide (rowKey r = k))))

def aggToItem (a : AggRow) : List (String × Value) :=
  [("InvoiceNo", Value.vStr a.invoiceNo),
   ("StockCode", Value.vStr a.stockCode),
   ("Quantity", Value.vInt a.quantity),
   ("TotalAmount", Value.vFloat (PyFloat.exact a.totalAmount)),
   ("InvoiceDate", Value.vStr a.invoiceDate),
   ("Country", Value.vStr a.country),
   ("CustomerID", Value.vStr a.customerID),
   ("UnitPrice", Value.vFloat (PyFloat.exact a.unitPrice))]

def prepare_dataframe_for_dynamo (fmtDate : String → String) (rows : List InRow) :
    List (List (String × Value)) :=
  ((groupByKey (cleanRows fmtDate rows)).map aggToItem).map convert_float_to_decimal

def getAttr (item : List (String × Value)) (k : String) : Option Value :=
  (item.find? (fun kv => kv.1 == k)).map Prod.snd

def itemHasKey (item : List (String × Value)) (inv sc : String) : Bool :=
  (getAttr item "InvoiceNo" == some (Value.vStr inv)) &&
  (getAttr item "StockCode" == some (Value.vStr sc))

lemma prepared_item_fields (a : AggRow) :
    convert_float_to_decimal (aggToItem a) =
      [("InvoiceNo", Value.vStr a.invoiceNo),
       ("StockCode", Value.vStr a.stockCode),
       ("Quantity", Value.vInt a.quantity),
       ("TotalAmount", Value.vDecimal a.totalAmount),
       ("InvoiceDate", Value.vStr a.invoiceDate),
       ("Country", Value.vStr a.country),
       ("CustomerID", Value.vStr a.customerID),
       ("UnitPrice", Value.vDecimal a.unitPrice)] := rfl

lemma getAttr_built_invoiceNo (a : AggRow) :
    getAttr (convert_float_to_decimal (aggToItem a)) "InvoiceNo" =
      some (Value.vStr a.invoiceNo) := rfl

lemma getAttr_built_stockCode (a : AggRow) :
    getAttr (convert_float_to_decimal (aggToItem a)) "StockCode" =
      some (Value.vStr a.stockCode) := rfl

lemma getAttr_built_quantity (a : AggRow) :
    getAttr (convert_float_to_decimal (aggToItem a)) "Quantity" =
      some (Value.vInt a.quantity) := rfl

lemma getAttr_built_customerID (a : AggRow) :
    getAttr (convert_float_to_decimal (aggToItem a)) "CustomerID" =
      some (Value.vStr a.customerID) := rfl


lemma mem_uniqueKeys (a : String × String) :
    ∀ l : List (String × String), a ∈ uniqueKeys l ↔ a ∈ l := by
  intro l
  induction l with
  | nil => simp [uniqueKeys]
  | cons k ks ih =>
    rw [uniqueKeys]
    by_cases ha : a = k
    · subst ha
      simp
    · simp only [List.mem_cons, List.mem_filter]
      constructor
      · rintro (h | ⟨h, _⟩)
        · exact Or.inl h
        · exact Or.inr (ih.mp h)
      · rintro (h | h)
        · exact Or.inl h
        · exact Or.inr ⟨ih.mpr h, by simpa using ha⟩

lemma count_uniqueKeys (a : String × String) :
    ∀ l : List (String × String),
      ((uniqueKeys l).filter (fun k => decide (k = a))).length =
        if a ∈ l then 1 else 0 := by
  intro l
  induction l with
  | nil => simp [uniqueKeys]
  | cons k ks ih =>
    rw [uniqueKeys, List.filter_cons]
    by_cases hk : k = a
    · subst hk
      rw [if_pos (by simp), if_pos (by simp)]
      simp only [List.length_cons, List.filter_filter]
      have hz : ((uniqueKeys ks).filter
          (fun x => decide (x = k) && decide (x ≠ k))).length = 0 := by
        rw [List.length_eq_zero, List.filter_eq_nil_iff]
        intro x hx
        by_cases hxk : x = k <;> simp [hxk]
      omega
    · rw [if_neg (by simpa using hk)]
      rw [List.filter_filter]
      have hcongr : ((uniqueKeys ks).filter
            (fun x => decide (x = a) && decide (x ≠ k))) =
          ((uniqueKeys ks).filter (fun x => decide (x = a))) := by
        apply List.filter_congr
        intro x hx
        by_cases hxa : x = a
        · have hak : ¬a = k := fun h => hk h.symm
          simp [hxa, hak]
        · simp [hxa]
      rw [hcongr, ih]
      have hmemiff : (a ∈ k :: ks) ↔ a ∈ ks := by
        rw [List.mem_cons]
        constructor
        · rintro (h | h)
          · exact absurd h.symm hk
          · exact h
        · exact Or.inr
      by_cases hm : a ∈ ks
      · rw [if_pos hm, if_pos (hmemiff.mpr hm)]
      · rw [if_neg hm, if_neg (fun hc => hm (hmemiff.mp hc))]

lemma find?_key_self (a : String × String) :
    ∀ l : List (String × String), a ∈ l →
      l.find? (fun k => decide (k = a)) = some a := by
  intro l
  induction l with
  | nil => intro h; cases h
  | cons k ks ih =>
    intro h
    by_cases hk : k = a
    · subst hk
      exact List.find?_cons_of_pos _ (by simp)
    · rw [List.find?_cons_of_neg _ (by simpa using hk)]
      apply ih
      rcases List.mem_cons.mp h with h1 | h1
      · exact absurd h1.symm hk
      · exact h1

lemma find?_map_comm {A B : Type} (f : A → B) (p : B → Bool) :
    ∀ l : List A, (l.map f).find? p = (l.find? (fun x => p (f x))).map f := by
  intro l
  induction l with
  | nil => rfl
  | cons x xs ih =>
    simp only [List.map_cons, List.find?_cons]
    by_cases hx : p (f x)
    · simp [hx]
    · simp only [Bool.not_eq_true] at hx
      simp [hx, ih]


/-- Claim C2: for every input row set (rows with the primary key present),
the output of prepare_dataframe_for_dynamo contains exactly one record per
distinct (InvoiceNo, StockCode) key observed in the input — count 1 for an
observed key, 0 otherwise — and that record's Quantity and TotalAmount are
the sums over all input rows sharing the key, while InvoiceDate, Country,
CustomerID and UnitPrice come from the first row of the group. -/
theorem prepare_dataframe_aggregation_spec (fmtDate : String → String)
    (rows : List InRow) (h : ∀ r ∈ rows, r.invoiceNo.isSome = true) (inv sc : String) :
    ((prepare_dataframe_for_dynamo fmtDate rows).filter
        (fun it => itemHasKey it inv sc)).length =
      (if rows.filter (fun r => decide (r.invoiceNo = some inv ∧ r.stockCode = sc)) = []
       then 0 else 1) ∧
    (∀ r0, (rows.filter (fun r => decide (r.invoiceNo = some inv ∧ r.stockCode = sc))).head? = some r0 →
      (prepare_dataframe_for_dynamo fmtDate rows).find? (fun it => itemHasKey it inv sc) =
        some [("InvoiceNo", Value.vStr inv),
              ("StockCode", Value.vStr sc),
              ("Quantity", Value.vInt
                ((rows.filter (fun r => decide (r.invoiceNo = some inv ∧ r.stockCode = sc))).map
                  InRow.quantity).sum),
              ("TotalAmount", Value.vDecimal
                ((rows.filter (fun r => decide (r.invoiceNo = some inv ∧ r.stockCode = sc))).map
                  InRow.totalAmount).sum),
              ("InvoiceDate", Value.vStr (fmtDate r0.invoiceDate)),
              ("Country", Value.vStr r0.country),
              ("CustomerID", Value.vStr (r0.customerID.getD "Guest")),
              ("UnitPrice", Value.vDecimal r0.unitPrice)]) := by
  have hfil : rows.filter (fun r => r.invoiceNo.isSome) = rows :=
    List.filter_eq_self.mpr h
  have hclean : cleanRows fmtDate rows = rows.map (cleanRow fmtDate) := by
    rw [cleanRows, hfil]
  have hout : prepare_dataframe_for_dynamo fmtDate rows =
      (uniqueKeys ((rows.map (cleanRow fmtDate)).map rowKey)).map
        (fun k => convert_float_to_decimal (aggToItem (aggregateGroup k
          ((rows.map (cleanRow fmtDate)).filter (fun r => decide (rowKey r = k)))))) := by
    rw [prepare_dataframe_for_dynamo, hclean, groupByKey, List.map_map, List.map_map]
    rfl
  have hkeq : ∀ (k : String × String) (g : List CleanRow),
      itemHasKey (convert_float_to_decimal (aggToItem (aggregateGroup k g))) inv sc =
        decide (k = (inv, sc)) := by
    intro k g
    rcases k with ⟨ka, kb⟩
    rw [itemHasKey, getAttr_built_invoiceNo, getAttr_built_stockCode]
    by_cases h1 : ka = inv <;> by_cases h2 : kb = sc <;>
      simp [h1, h2, aggregateGroup, Prod.ext_iff]
  have hpred : (fun k => itemHasKey
      (convert_float_to_decimal (aggToItem (aggregateGroup k
        ((rows.map (cleanRow fmtDate)).filter (fun r => decide (rowKey r = k)))))) inv sc) =
      (fun k => decide (k = (inv, sc))) :=
    funext (fun k => hkeq k _)
  have hbridge : ((inv, sc) ∈ (rows.map (cleanRow fmtDate)).map rowKey) ↔
      rows.filter (fun r => decide (r.invoiceNo = some inv ∧ r.stockCode = sc)) ≠ [] := by
    rw [List.map_map, List.mem_map]
    constructor
    · rintro ⟨r, hr, hkey⟩
      obtain ⟨v, hv⟩ := Option.isSome_iff_exists.mp (h r hr)
      apply List.ne_nil_of_mem (a := r)
      apply List.mem_filter.mpr
      refine ⟨hr, ?_⟩
      have hkey2 : (r.invoiceNo.getD "", r.stockCode) = (inv, sc) := hkey
      rw [Prod.ext_iff] at hkey2
      apply decide_eq_true
      refine ⟨?_, hkey2.2⟩
      rw [hv]
      rw [hv] at hkey2
      simp at hkey2
      rw [hkey2.1]
    · intro hne
      obtain ⟨r, hrg⟩ := List.exists_mem_of_ne_nil _ hne
      have hm := List.mem_filter.mp hrg
      have hd := of_decide_eq_true hm.2
      refine ⟨r, hm.1, ?_⟩
      show (r.invoiceNo.getD "", r.stockCode) = (inv, sc)
      rw [hd.1, hd.2]
      rfl
  have hcount : ((prepare_dataframe_for_dynamo fmtDate rows).filter
      (fun it => itemHasKey it inv sc)).length =
      (if (inv, sc) ∈ (rows.map (cleanRow fmtDate)).map rowKey then 1 else 0) := by
    rw [hout, List.filter_map, List.length_map]
    rw [show ((fun it => itemHasKey it inv sc) ∘
        (fun k => convert_float_to_decimal (aggToItem (aggregateGroup k
          ((rows.map (cleanRow fmtDate)).filter (fun r => decide (rowKey r = k))))))) =
      (fun k => decide (k = (inv, sc))) from hpred]
    exact count_uniqueKeys (inv, sc) _
  constructor
  · rw [hcount]
    by_cases hg : rows.filter (fun r => decide (r.invoiceNo = some inv ∧ r.stockCode = sc)) = []
    · rw [if_pos hg, if_neg (fun hm => (hbridge.mp hm) hg)]
    · rw [if_neg hg, if_pos (hbridge.mpr hg)]
  · intro r0 hr0
    have hne : rows.filter (fun r => decide (r.invoiceNo = some inv ∧ r.stockCode = sc)) ≠ [] := by
      intro hnil
      rw [hnil] at hr0
      cases hr0
    have hmemK : (inv, sc) ∈ (rows.map (cleanRow fmtDate)).map rowKey := hbridge.mpr hne
    have hcg : (rows.map (cleanRow fmtDate)).filter
        (fun cr => decide (rowKey cr = (inv, sc))) =
        (rows.filter (fun r => decide (r.invoiceNo = some inv ∧ r.stockCode = sc))).map
          (cleanRow fmtDate) := by
      rw [List.filter_map]
      congr 1
      apply List.filter_congr
      intro r hr
      obtain ⟨v, hv⟩ := Option.isSome_iff_exists.mp (h r hr)
      show decide (rowKey (cleanRow fmtDate r) = (inv, sc)) =
        decide (r.invoiceNo = some inv ∧ r.stockCode = sc)
      rw [decide_eq_decide]
      show ((r.invoiceNo.getD "", r.stockCode) = (inv, sc)) ↔ _
      rw [hv, Prod.ext_iff]
      simp
    have ha : aggregateGroup (inv, sc)
        ((rows.filter (fun r => decide (r.invoiceNo = some inv ∧ r.stockCode = sc))).map
          (cleanRow fmtDate)) =
        { invoiceNo := inv, stockCode := sc,
          quantity := ((rows.filter (fun r => decide (r.invoiceNo = some inv ∧ r.stockCode = sc))).map
            InRow.quantity).sum,
          totalAmount := ((rows.filter (fun r => decide (r.invoiceNo = some inv ∧ r.stockCode = sc))).map
            InRow.totalAmount).sum,
          invoiceDate := fmtDate r0.invoiceDate,
          country := r0.country,
          customerID := r0.customerID.getD "Guest",
          unitPrice := r0.unitPrice } := by
      rw [aggregateGroup]
      rw [List.head?_map, hr0, List.map_map, List.map_map]
      rfl
    rw [hout, find?_map_comm]
    rw [show (fun k => itemHasKey
        (convert_float_to_decimal (aggToItem (aggregateGroup k
          ((rows.map (cleanRow fmtDate)).filter (fun r => decide (rowKey r = k)))))) inv sc) =
      (fun k => decide (k = (inv, sc))) from hpred]
    rw [find?_key_self _ _ ((mem_uniqueKeys _ _).mpr hmemK)]
    rw [Option.map_some']
    rw [hcg, ha]
    rfl


def isStringValue : Option Value → Bool
  | some (Value.vStr _) => true
  | _ => false

/-- Claim C7: every record emitted by prepare_dataframe_for_dynamo carries a
CustomerID attribute that is present and a string (in particular never the
null value), and when the customer identifier is absent from the input the
attribute is the sentinel "Guest". -/
theorem prepare_customer_id_spec (fmtDate : String → String) (rows : List InRow)
    (item : List (String × Value))
    (hmem : item ∈ prepare_dataframe_for_dynamo fmtDate rows) :
    isStringValue (getAttr item "CustomerID") = true ∧
    ((∀ r ∈ rows, r.customerID = none) →
      getAttr item "CustomerID" = some (Value.vStr "Guest")) := by
  rw [prepare_dataframe_for_dynamo] at hmem
  obtain ⟨it1, hit1, rfl⟩ := List.mem_map.mp hmem
  obtain ⟨a, hain, rfl⟩ := List.mem_map.mp hit1
  rw [groupByKey] at hain
  obtain ⟨k, hk, rfl⟩ := List.mem_map.mp hain
  rw [getAttr_built_customerID]
  refine ⟨rfl, ?_⟩
  intro hnone
  have hkmem : k ∈ (cleanRows fmtDate rows).map rowKey := (mem_uniqueKeys _ _).mp hk
  obtain ⟨cr, hcr, hcrk⟩ := List.mem_map.mp hkmem
  have hgrp_ne : (cleanRows fmtDate rows).filter (fun r => decide (rowKey r = k)) ≠ [] :=
    List.ne_nil_of_mem (List.mem_filter.mpr ⟨hcr, decide_eq_true hcrk⟩)
  rcases hgl : (cleanRows fmtDate rows).filter (fun r => decide (rowKey r = k)) with _ | ⟨cr0, rest⟩
  · exact absurd hgl hgrp_ne
  · have hcr0mem : cr0 ∈ cleanRows fmtDate rows := by
      have hmem0 : cr0 ∈ (cleanRows fmtDate rows).filter (fun r => decide (rowKey r = k)) := by
        rw [hgl]
        exact List.mem_cons_self _ _
      exact (List.mem_filter.mp hmem0).1
    rw [cleanRows] at hcr0mem
    obtain ⟨r, hrmem, rfl⟩ := List.mem_map.mp hcr0mem
    have hrrows : r ∈ rows := (List.mem_filter.mp hrmem).1
    show some (Value.vStr (r.customerID.getD "Guest")) = some (Value.vStr "Guest")
    rw [hnone r hrrows]
    rfl


def wRow1 : InRow := ⟨some "A1", "X", "2010-12-01", "France", some "C1", 2, 5, 10⟩

def wRow2 : InRow := ⟨some "A1", "X", "2010-12-01", "France", some "C1", 3, 5, 15⟩

/-- Witness for C2 at the spec scenario: two rows of invoice A1, item X with
quantities 2 and 3 and totals 10 and 15 aggregate to exactly one record of
quantity 5 and total 25, with the remaining attributes from the first row. -/
theorem prepare_dataframe_aggregation_spec_witness :
    (∀ r ∈ [wRow1, wRow2], r.invoiceNo.isSome = true) ∧
    ((prepare_dataframe_for_dynamo (fun s => s) [wRow1, wRow2]).filter
        (fun it => itemHasKey it "A1" "X")).length = 1 ∧
    (prepare_dataframe_for_dynamo (fun s => s) [wRow1, wRow2]).find?
        (fun it => itemHasKey it "A1" "X") =
      some [("InvoiceNo", Value.vStr "A1"),
            ("StockCode", Value.vStr "X"),
            ("Quantity", Value.vInt 5),
            ("TotalAmount", Value.vDecimal 25),
            ("InvoiceDate", Value.vStr "2010-12-01"),
            ("Country", Value.vStr "France"),
            ("CustomerID", Value.vStr "C1"),
            ("UnitPrice", Value.vDecimal 5)] := by
  have h : ∀ r ∈ [wRow1, wRow2], r.invoiceNo.isSome = true := by decide
  have spec := prepare_dataframe_aggregation_spec (fun s => s) [wRow1, wRow2] h "A1" "X"
  refine ⟨h, ?_, ?_⟩
  · have h1 := spec.1
    rw [if_neg (by decide)] at h1
    exact h1
  · have h2 := spec.2 wRow1 (by decide)
    rw [h2]
    simp [wRow1, wRow2]
    norm_num

def wRow3 : InRow := ⟨some "A1", "X", "2010-12-01", "Spain", none, 2, 5, 10⟩

def wItem : List (String × Value) :=
  [("InvoiceNo", Value.vStr "A1"),
   ("StockCode", Value.vStr "X"),
   ("Quantity", Value.vInt 2),
   ("TotalAmount", Value.vDecimal 10),
   ("InvoiceDate", Value.vStr "2010-12-01"),
   ("Country", Value.vStr "Spain"),
   ("CustomerID", Value.vStr "Guest"),
   ("UnitPrice", Value.vDecimal 5)]

/-- Witness for C7 at a concrete input whose customer identifier is absent:
the emitted record's CustomerID is the string "Guest". -/
theorem prepare_customer_id_spec_witness :
    wItem ∈ prepare_dataframe_for_dynamo (fun s => s) [wRow3] ∧
    isStringValue (getAttr wItem "CustomerID") = true ∧
    getAttr wItem "CustomerID" = some (Value.vStr "Guest") := by
  have hprep : prepare_dataframe_for_dynamo (fun s => s) [wRow3] = [wItem] := by
    rw [prepare_dataframe_for_dynamo, cleanRows, groupByKey]
    simp [cleanRow, uniqueKeys, rowKey, aggregateGroup, aggToItem,
      convert_float_to_decimal, wRow3, wItem, PyFloat.exact, pyFloatStr,
      decimalOfString]
  have hmem : wItem ∈ prepare_dataframe_for_dynamo (fun s => s) [wRow3] := by
    rw [hprep]
    exact List.mem_cons_self _ _
  have spec := prepare_customer_id_spec (fun s => s) [wRow3] wItem hmem
  exact ⟨hmem, spec.1, spec.2 (by decide)⟩

/-!
### Filter composer and query key conditions (boto3 dynamodb conditions)

boto3 condition expressions (Attr(...).eq / .gte / .lte, Key(...).eq /
.between, &, |) are an external collaborator; they are embedded as a
predicate tree `Cond` with the documented DynamoDB evaluation semantics
over attribute maps: numeric comparisons compare the number held by the
attribute, equality compares the typed value, and / or are boolean.
-/

/-- A condition tree: leaf comparisons and boolean combinators. -/
inductive Cond where
  | eqC (attr : String) (v : Value)
  | gteC (attr : String) (q : Rat)
  | lteC (attr : String) (q : Rat)
  | betweenC (attr : String) (lo hi : String)
  | andC (p q : Cond)
  | orC (p q : Cond)
deriving DecidableEq, Repr

/-- The number held by an attribute value, if any. -/
def numValue : Option Value → Option Rat
  | some (Value.vInt n) => some (n : Rat)
  | some (Value.vDecimal q) => some q
  | some (Value.vFloat f) => some f.binary
  | _ => none

/-- The string held by an attribute value, if any. -/
def strValue : Option Value → Option String
  | some (Value.vStr s) => some s
  | _ => none

/-- DynamoDB evaluation of a condition tree against one item. -/
def evalCond (item : List (String × Value)) : Cond → Bool
  | .eqC a v => getAttr item a == some v
  | .gteC a q =>
      match numValue (getAttr item a) with
      | some x => decide (q ≤ x)
      | none => false
  | .lteC a q =>
      match numValue (getAttr item a) with
      | some x => decide (x ≤ q)
      | none => false
  | .betweenC a lo hi =>
      match strValue (getAttr item a) with
      | some s => decide (lo ≤ s ∧ s ≤ hi)
      | none => false
  | .andC p q => evalCond item p && evalCond item q
  | .orC p q => evalCond item p || evalCond item q

/-- src/analityics/queries/histogram_query.py,
get_sales_for_histogram_analysis: collect the optional TotalAmount bounds
(each as Decimal(str(m))) and, when the country list is truthy (nonempty),
the OR-fold of the Country equalities; then AND-fold the collected
conditions, None when nothing was collected.  The scan itself is the
paginated_scan engine with this filter. -/
def histogram_filter (countries : List String)
    (min_amount max_amount : Option PyFloat) : Option Cond :=
  let conditions :=
    (match min_amount with
     | some m => [Cond.gteC "TotalAmount" (decimalOfString (pyFloatStr m))]
     | none => [])
    ++ (match max_amount with
        | some m => [Cond.lteC "TotalAmount" (decimalOfString (pyFloatStr m))]
        | none => [])
    ++ (match countries with
        | [] => []
        | c :: cs =>
          [(cs.map (fun c2 => Cond.eqC "Country" (Value.vStr c2))).foldl
            Cond.orC (Cond.eqC "Country" (Value.vStr c))])
  match conditions with
  | [] => none
  | c :: cs => some (cs.foldl Cond.andC c)

lemma evalCond_orFold (item : List (String × Value)) :
    ∀ (cs : List Cond) (init : Cond),
      evalCond item (cs.foldl Cond.orC init) =
        (evalCond item init || cs.any (fun x => evalCond item x)) := by
  intro cs
  induction cs with
  | nil =>
    intro init
    simp
  | cons c rest ih =>
    intro init
    rw [List.foldl_cons, ih]
    rw [show evalCond item (Cond.orC init c) =
      (evalCond item init || evalCond item c) from rfl]
    simp [Bool.or_assoc]

/-- Claim C9: the filter built by get_sales_for_histogram_analysis from a
nonempty country list and a minimum amount is the conjunction of the
TotalAmount lower bound and the disjunction of the Country equalities, and
it matches an item exactly when the item's TotalAmount is at least the
minimum AND its Country equals one of the listed countries. -/
theorem histogram_filter_spec (c : String) (cs : List String) (m : PyFloat)
    (item : List (String × Value)) :
    histogram_filter (c :: cs) (some m) none =
      some (Cond.andC (Cond.gteC "TotalAmount" m.display)
        ((cs.map (fun c2 => Cond.eqC "Country" (Value.vStr c2))).foldl Cond.orC
          (Cond.eqC "Country" (Value.vStr c)))) ∧
    ∀ F, histogram_filter (c :: cs) (some m) none = some F →
      (evalCond item F = true ↔
        ((∃ x, numValue (getAttr item "TotalAmount") = some x ∧ m.display ≤ x) ∧
         (∃ cc ∈ c :: cs, getAttr item "Country" = some (Value.vStr cc)))) := by
  have hbuild : histogram_filter (c :: cs) (some m) none =
      some (Cond.andC (Cond.gteC "TotalAmount" m.display)
        ((cs.map (fun c2 => Cond.eqC "Country" (Value.vStr c2))).foldl Cond.orC
          (Cond.eqC "Country" (Value.vStr c)))) := rfl
  refine ⟨hbuild, ?_⟩
  intro F hF
  rw [hbuild] at hF
  injection hF with hF
  subst hF
  rw [show evalCond item (Cond.andC (Cond.gteC "TotalAmount" m.display)
      ((cs.map (fun c2 => Cond.eqC "Country" (Value.vStr c2))).foldl Cond.orC
        (Cond.eqC "Country" (Value.vStr c)))) =
    (evalCond item (Cond.gteC "TotalAmount" m.display) &&
     evalCond item ((cs.map (fun c2 => Cond.eqC "Country" (Value.vStr c2))).foldl Cond.orC
        (Cond.eqC "Country" (Value.vStr c)))) from rfl]
  rw [Bool.and_eq_true]
  have hgte : (evalCond item (Cond.gteC "TotalAmount" m.display) = true) ↔
      (∃ x, numValue (getAttr item "TotalAmount") = some x ∧ m.display ≤ x) := by
    rcases hnv : numValue (getAttr item "TotalAmount") with _ | x <;>
      simp [evalCond, hnv]
  have hor : (evalCond item ((cs.map (fun c2 => Cond.eqC "Country" (Value.vStr c2))).foldl
      Cond.orC (Cond.eqC "Country" (Value.vStr c))) = true) ↔
      (∃ cc ∈ c :: cs, getAttr item "Country" = some (Value.vStr cc)) := by
    have hev : ∀ cc, (evalCond item (Cond.eqC "Country" (Value.vStr cc)) = true) ↔
        getAttr item "Country" = some (Value.vStr cc) := by
      intro cc
      rw [show evalCond item (Cond.eqC "Country" (Value.vStr cc)) =
        (getAttr item "Country" == some (Value.vStr cc)) from rfl]
      exact beq_iff_eq
    rw [evalCond_orFold]
    simp only [Bool.or_eq_true, List.any_eq_true]
    constructor
    · rintro (h1 | ⟨x, hx, h2⟩)
      · exact ⟨c, List.mem_cons_self _ _, (hev c).mp h1⟩
      · obtain ⟨cc, hcc, rfl⟩ := List.mem_map.mp hx
        exact ⟨cc, List.mem_cons_of_mem _ hcc, (hev cc).mp h2⟩
    · rintro ⟨cc, hcc, h2⟩
      rcases List.mem_cons.mp hcc with rfl | hcc2
      · exact Or.inl ((hev cc).mpr h2)
      · exact Or.inr ⟨Cond.eqC "Country" (Value.vStr cc),
          List.mem_map_of_mem _ hcc2, (hev cc).mpr h2⟩
  rw [hgte, hor]

/-- Witness for C9 at the spec scenario: countries Spain and Italy with
minimum amount 100; the built filter is the AND of the bound with the OR of
the two equalities, and a record of Country Italy and TotalAmount 150
matches it. -/
theorem histogram_filter_spec_witness :
    histogram_filter ["Spain", "Italy"] (some ⟨100, 100⟩) none =
      some (Cond.andC (Cond.gteC "TotalAmount" 100)
        (Cond.orC (Cond.eqC "Country" (Value.vStr "Spain"))
          (Cond.eqC "Country" (Value.vStr "Italy")))) ∧
    evalCond [("Country", Value.vStr "Italy"), ("TotalAmount", Value.vDecimal 150)]
      (Cond.andC (Cond.gteC "TotalAmount" 100)
        (Cond.orC (Cond.eqC "Country" (Value.vStr "Spain"))
          (Cond.eqC "Country" (Value.vStr "Italy")))) = true := by
  have spec := histogram_filter_spec "Spain" ["Italy"] ⟨100, 100⟩
    [("Country", Value.vStr "Italy"), ("TotalAmount", Value.vDecimal 150)]
  refine ⟨spec.1, ?_⟩
  apply (spec.2 _ spec.1).mpr
  constructor
  · exact ⟨150, rfl, by norm_num⟩
  · exact ⟨"Italy", by simp, rfl⟩

/-- Python truthiness of an optional string (None and "" are falsy). -/
def pyTruthy : Option String → Bool
  | none => false
  | some s => s != ""

/-- src/analityics/queries/sales_query.py (and the identical conditional in
src/analityics/query.py), get_sales_by_country: the key condition is the
Country equality, extended with the InvoiceDate between-range only when
both start_date and end_date are provided (truthy). -/
def sales_by_country_key_condition (country : String)
    (start_date end_date : Option String) : Cond :=
  let key_condition := Cond.eqC "Country" (Value.vStr country)
  if pyTruthy start_date && pyTruthy end_date then
    Cond.andC key_condition
      (Cond.betweenC "InvoiceDate" (start_date.getD "") (end_date.getD ""))
  else key_condition

/-- Claim C10: when exactly one of start_date and end_date is provided (the
other is None), the date range is silently not applied: the key condition
built by get_sales_by_country is the Country equality alone, and an item
matches it exactly when its Country matches — regardless of InvoiceDate. -/
theorem sales_by_country_single_date_spec (country : String)
    (start_date end_date : Option String)
    (h : start_date = none ∨ end_date = none)
    (item : List (String × Value)) :
    sales_by_country_key_condition country start_date end_date =
      Cond.eqC "Country" (Value.vStr country) ∧
    (evalCond item (sales_by_country_key_condition country start_date end_date) = true ↔
      getAttr item "Country" = some (Value.vStr country)) := by
  have hcond : sales_by_country_key_condition country start_date end_date =
      Cond.eqC "Country" (Value.vStr country) := by
    rcases h with h | h <;> rw [sales_by_country_key_condition, h] <;>
      simp [pyTruthy]
  refine ⟨hcond, ?_⟩
  rw [hcond]
  rw [show evalCond item (Cond.eqC "Country" (Value.vStr country)) =
    (getAttr item "Country" == some (Value.vStr country)) from rfl]
  exact beq_iff_eq

/-- Witness for C10 at a concrete call: country France with a start date but
no end date; the key condition is the bare Country equality, and a record of
Country France with some InvoiceDate outside any range matches. -/
theorem sales_by_country_single_date_spec_witness :
    (some "2010-12-01" = (none : Option String) ∨
      (none : Option String) = none) ∧
    sales_by_country_key_condition "France" (some "2010-12-01") none =
      Cond.eqC "Country" (Value.vStr "France") ∧
    evalCond [("Country", Value.vStr "France"),
              ("InvoiceDate", Value.vStr "2031-01-01T00:00:00")]
      (sales_by_country_key_condition "France" (some "2010-12-01") none) = true := by
  have spec := sales_by_country_single_date_spec "France" (some "2010-12-01") none
    (Or.inr rfl)
    [("Country", Value.vStr "France"), ("InvoiceDate", Value.vStr "2031-01-01T00:00:00")]
  exact ⟨Or.inr rfl, spec.1, spec.2.mpr rfl⟩

end DynamoPract
